import Mathlib

/-!
# cob_powercube_chain: trajectory sequencer and goal lifecycle

Shallow embedding of `PowercubeChainNode`
(`cob_driver/cob_powercube_chain/ros/src/cob_powercube_chain.cpp`).

* The member variables of the class that the callbacks and the control loop read or
  write form the record `Node`.
* Every member function becomes a function from the node state and the values the
  environment hands back during the call (hardware return values, action-server
  flags) to the new state and the calls issued to the hardware driver `PCube_` and
  to the action server `as_`.
* The main thread (`main`: `updatePCubeCommands` followed by `ros::spinOnce`, which
  runs the topic and service callbacks) is the function `run` over a list of
  `Request`s.  `executeCB` runs in the thread of the action server; its
  `while(finished_ == false)` loop is modelled by the values of `finished_` and
  `isNewGoalAvailable()` it observes, one pair per pass.
* An unchecked `operator[]` past the end of a `std::vector` has no defined
  behaviour; the functions containing one return `Option` and yield `none` there.
-/

namespace PowercubeChain

/-! ## Data model -/

/-- A joint coordinate (`double` in the source).  The node only copies these values
between messages and driver calls and never computes with them, so integers stand
in for them. -/
abbrev JointValue := Int

/-- The fields of `trajectory_msgs::JointTrajectoryPoint` the node reads. -/
structure JointTrajectoryPoint where
  positions : List JointValue
  velocities : List JointValue
deriving DecidableEq, Repr

/-- The field of `trajectory_msgs::JointTrajectory` the node reads. -/
structure JointTrajectory where
  points : List JointTrajectoryPoint
deriving DecidableEq, Repr

/-- Calls made on the hardware driver `PCube_`. -/
inductive PCubeCall where
  | Init
  | Stop
  | MoveVel (velocities : List JointValue)
  | MoveJointSpaceSync (positions : List JointValue)
deriving DecidableEq, Repr

/-- Terminal reports made on the action server `as_`. -/
inductive ActionCall where
  | setAborted
  | setPreempted
  | setSucceeded
deriving DecidableEq, Repr

/-- The response of `cob_srvs::Trigger` and `cob_srvs::SetOperationMode`
(`success`: 0 = true, else = false). -/
structure Response where
  success : Nat
  errorMessage : String
deriving DecidableEq, Repr

/-- Member variables of `PowercubeChainNode` used by the callbacks and by
`updatePCubeCommands`.  `OperationMode` is the entry of that name on the parameter
server (`n_.getParam` / `n_.setParam`), `ModIds_param_size` is `ModIds_param_.size()`.
`traj_point_nr_` is an `int` that only ever holds `0`, a successor below
`traj_.points.size()`, or `traj_.points.size()` itself; a trajectory message holds
fewer than `2^31` points (its serialised length is a 32-bit byte count), so the
value is a natural number that never wraps. -/
structure Node where
  isInitialized_ : Bool
  finished_ : Bool
  cmd_vel_ : List JointValue
  newvel_ : Bool
  traj_ : JointTrajectory
  traj_point_ : JointTrajectoryPoint
  traj_point_nr_ : Nat
  OperationMode : String
  ModIds_param_size : Nat
deriving DecidableEq, Repr

/-! ## Callbacks -/

/-- `topicCallback_DirectCommand`: sets `newvel_` and copies
`msg->points[0].velocities`; `none` when `msg->points` is empty. -/
def topicCallback_DirectCommand (s : Node) (msg : JointTrajectory) : Option Node :=
  let s1 := { s with newvel_ := true }
  match msg.points with
  | [] => none
  | p :: _ => some { s1 with cmd_vel_ := p.velocities }

/-- What the part of `executeCB` before the wait loop leaves behind: the node state,
the driver calls, the action-server calls, and whether control goes on into the
wait loop (`false`: the function has returned). -/
structure Entry where
  node : Node
  hw : List PCubeCall
  as : List ActionCall
  waiting : Bool
deriving DecidableEq, Repr

/-- `executeCB` up to and including `usleep(500000)`.  `isPreemptRequested` is the
value of `as_.isPreemptRequested()`.  `none` when `traj_.points[traj_point_nr_]`
reads past the end of the stored trajectory. -/
def executeCB_entry (s : Node) (goal : JointTrajectory) (isPreemptRequested : Bool) :
    Option Entry :=
  if !s.isInitialized_ then
    some { node := s, hw := [], as := [ActionCall.setAborted], waiting := false }
  else
    let s1 := { s with traj_ := goal }
    let s2 := { s1 with traj_point_nr_ := 0 }
    match s2.traj_.points.get? s2.traj_point_nr_ with
    | none => none
    | some p =>
      let s3 := { s2 with traj_point_ := p }
      let s4 := { s3 with finished_ := false }
      let VelZero : List JointValue := List.replicate s4.ModIds_param_size 0
      let hw := [PCubeCall.MoveVel VelZero]
      let as := if isPreemptRequested then [ActionCall.setPreempted] else []
      some { node := s4, hw := hw, as := as, waiting := true }

/-- One pass through `while(finished_ == false)` in `executeCB`, given the value of
`finished_` read by the loop test and the value of `as_.isNewGoalAvailable()`:
`some c` when the function reports `c` and returns, `none` when it sleeps and
tests again. -/
def executeCB_poll (finished_ : Bool) (isNewGoalAvailable : Bool) : Option ActionCall :=
  if finished_ == false then
    if isNewGoalAvailable then some ActionCall.setAborted
    else none
  else some ActionCall.setSucceeded

/-- The wait loop of `executeCB` over the successive observations
(`finished_`, `isNewGoalAvailable()`): the report it ends with, or `none` while it
is still waiting after the last observation. -/
def executeCB_wait : List (Bool × Bool) → Option ActionCall
  | [] => none
  | (fin, ng) :: rest =>
    match executeCB_poll fin ng with
    | some c => some c
    | none => executeCB_wait rest

/-- A whole run of `executeCB`: the calls it makes on the action server, in order,
from entry to return.  `observed` holds what the successive passes of the wait loop
read (`finished_`, `isNewGoalAvailable()`).  `none` when the entry reads past the end
of the trajectory, or when the loop is still waiting after the last observation (the
run has not returned). -/
def executeCB (s : Node) (goal : JointTrajectory) (isPreemptRequested : Bool)
    (observed : List (Bool × Bool)) : Option (List ActionCall) :=
  match executeCB_entry s goal isPreemptRequested with
  | none => none
  | some e =>
    if e.waiting then
      match executeCB_wait observed with
      | none => none
      | some c => some (e.as ++ [c])
    else some e.as

/-- `srvCallback_Init`.  `ret` is the value returned by `PCube_->Init`, `err` the
string `PCube_->getErrorMessage()` would return. -/
def srvCallback_Init (s : Node) (ret : Bool) (err : String) :
    Node × List PCubeCall × Response :=
  if s.isInitialized_ == false then
    if ret then
      ({ s with isInitialized_ := true }, [PCubeCall.Init], { success := 0, errorMessage := "" })
    else
      (s, [PCubeCall.Init], { success := 1, errorMessage := err })
  else
    (s, [], { success := 1, errorMessage := "powercubes already initialized" })

/-- `srvCallback_Stop`.  `ret` is the value returned by `PCube_->Stop`, `err` the
string `PCube_->getErrorMessage()` would return. -/
def srvCallback_Stop (s : Node) (ret : Bool) (err : String) :
    Node × List PCubeCall × Response :=
  let s1 := { s with newvel_ := false }
  let s2 := { s1 with traj_point_nr_ := s1.traj_.points.length }
  if ret then
    (s2, [PCubeCall.Stop], { success := 0, errorMessage := "" })
  else
    (s2, [PCubeCall.Stop], { success := 1, errorMessage := err })

/-- `srvCallback_Recover`. -/
def srvCallback_Recover (s : Node) (ret : Bool) (err : String) :
    Node × List PCubeCall × Response :=
  if s.isInitialized_ == true then
    if ret then
      (s, [PCubeCall.Stop], { success := 0, errorMessage := "" })
    else
      (s, [PCubeCall.Stop], { success := 1, errorMessage := err })
  else
    (s, [], { success := 1, errorMessage := "powercubes already recovered" })

/-- The string a `const char*` argument built with `c_str()` denotes: the characters
before the first NUL. -/
def c_str (data : String) : String :=
  String.mk (data.data.takeWhile (fun c => c != Char.ofNat 0))

/-- `srvCallback_SetOperationMode`: stores `req.operationMode.data.c_str()` on the
parameter server. -/
def srvCallback_SetOperationMode (s : Node) (operationMode : String) :
    Node × List PCubeCall × Response :=
  ({ s with OperationMode := c_str operationMode }, [], { success := 0, errorMessage := "" })

/-- `updatePCubeCommands`, one tick of the control loop.  `statusMoving` is the value
of `PCube_->statusMoving()`; `ret` is the value the driver returns from
`MoveJointSpaceSync` or `MoveVel`, which the function discards. -/
def updatePCubeCommands (s : Node) (statusMoving : Bool) (ret : Bool) :
    Node × List PCubeCall :=
  if s.isInitialized_ == true then
    if s.OperationMode == "position" then
      if statusMoving == false then
        if h : s.traj_point_nr_ < s.traj_.points.length then
          let s1 := { s with traj_point_ := s.traj_.points.get ⟨s.traj_point_nr_, h⟩ }
          let _ := ret
          ({ s1 with traj_point_nr_ := s1.traj_point_nr_ + 1 },
            [PCubeCall.MoveJointSpaceSync s1.traj_point_.positions])
        else
          ({ s with finished_ := true }, [])
      else
        (s, [])
    else if s.OperationMode == "velocity" then
      if s.newvel_ then
        let _ := ret
        ({ s with newvel_ := false }, [PCubeCall.MoveVel s.cmd_vel_])
      else
        (s, [])
    else
      (s, [])
  else
    (s, [])

/-! ## The main thread -/

/-- What the main loop processes: a tick of `updatePCubeCommands` or one callback
run by `ros::spinOnce`, each with the values the hardware driver returns. -/
inductive Request where
  | tick (statusMoving : Bool) (ret : Bool)
  | command (msg : JointTrajectory)
  | init (ret : Bool) (err : String)
  | stop (ret : Bool) (err : String)
  | recover (ret : Bool) (err : String)
  | setOperationMode (operationMode : String)
deriving DecidableEq, Repr

/-- The effect of one request: the new state and the driver calls issued, `none`
when the callback reads past the end of a vector. -/
def step (s : Node) : Request → Option (Node × List PCubeCall)
  | Request.tick statusMoving ret => some (updatePCubeCommands s statusMoving ret)
  | Request.command msg => (topicCallback_DirectCommand s msg).map (fun s1 => (s1, []))
  | Request.init ret err => some ((srvCallback_Init s ret err).1, (srvCallback_Init s ret err).2.1)
  | Request.stop ret err => some ((srvCallback_Stop s ret err).1, (srvCallback_Stop s ret err).2.1)
  | Request.recover ret err =>
    some ((srvCallback_Recover s ret err).1, (srvCallback_Recover s ret err).2.1)
  | Request.setOperationMode m =>
    some ((srvCallback_SetOperationMode s m).1, (srvCallback_SetOperationMode s m).2.1)

/-- The main thread over a list of requests: the driver calls issued by each request
in turn (up to the first one that faults) and the final state (`none` after a
fault). -/
def run : Node → List Request → List (List PCubeCall) × Option Node
  | s, [] => ([], some s)
  | s, r :: rs =>
    match step s r with
    | none => ([], none)
    | some (s1, out) => (out :: (run s1 rs).1, (run s1 rs).2)

/-- The position targets among a list of driver calls, in order: the arguments of
the `MoveJointSpaceSync` calls. -/
def moveTargets : List PCubeCall → List (List JointValue)
  | [] => []
  | PCubeCall.MoveJointSpaceSync p :: cs => p :: moveTargets cs
  | _ :: cs => moveTargets cs

/-- The velocity targets among a list of driver calls, in order: the arguments of
the `MoveVel` calls. -/
def velTargets : List PCubeCall → List (List JointValue)
  | [] => []
  | PCubeCall.MoveVel v :: cs => v :: velTargets cs
  | _ :: cs => velTargets cs

/-- A run made of ticks only, each with its hardware replies
(`statusMoving`, `ret`). -/
def ticks (replies : List (Bool × Bool)) : List Request :=
  replies.map (fun r => Request.tick r.1 r.2)

/-- The number of ticks among `replies` on which `statusMoving()` returned false. -/
def notMoving : List (Bool × Bool) → Nat
  | [] => 0
  | (statusMoving, _) :: rest =>
    if statusMoving then notMoving rest else notMoving rest + 1

/-! ## Concrete inputs -/

/-- First point of the two-joint scenario: positions `[0, 0]`. -/
def p0 : JointTrajectoryPoint := { positions := [0, 0], velocities := [0, 0] }

/-- Second point of the two-joint scenario: positions `[1, 1]`. -/
def p1 : JointTrajectoryPoint := { positions := [1, 1], velocities := [0, 0] }

/-- The trajectory `[(pos=[0,0]), (pos=[1,1])]`. -/
def T2 : JointTrajectory := { points := [p0, p1] }

/-- The node as the constructor leaves it, with two joints and no operation mode set
on the parameter server. -/
def fresh : Node :=
  { isInitialized_ := false, finished_ := false, cmd_vel_ := [0, 0], newvel_ := false,
    traj_ := { points := [] }, traj_point_ := { positions := [], velocities := [] },
    traj_point_nr_ := 0, OperationMode := "", ModIds_param_size := 2 }

/-- An initialised node in position mode holding no trajectory. -/
def idlePos : Node := { fresh with isInitialized_ := true, OperationMode := "position" }

/-- An initialised node in position mode, executing `T2` with the first point sent. -/
def midPos : Node :=
  { idlePos with traj_ := T2, traj_point_ := p0, traj_point_nr_ := 1 }

/-- Hardware replies (`statusMoving`, `ret`) of four ticks: not moving, moving, not
moving, not moving. -/
def scenarioReplies : List (Bool × Bool) :=
  [(false, true), (true, true), (false, true), (false, true)]

/-- An initialised node in velocity mode with no velocity command pending. -/
def idleVel : Node := { fresh with isInitialized_ := true, OperationMode := "velocity" }

/-- A direct command carrying the velocities `[3, -2]`. -/
def cmdV : JointTrajectory := { points := [{ positions := [], velocities := [3, -2] }] }

/-! ## The dirty-flag rule for velocity commands -/

/-- The velocities a sequence of direct commands and ticks gets applied under the
dirty-flag rule (one pending value, overwritten by each command, consumed by the
next tick): one entry for each tick that directly follows a command, holding the
velocities of the first point of that command. -/
def appliedVelocities : List Request → List (List JointValue)
  | [] => []
  | Request.command msg :: rest =>
    match rest with
    | Request.tick _ _ :: _ =>
      ((msg.points.head?).map (fun p => p.velocities)).getD [] :: appliedVelocities rest
    | _ => appliedVelocities rest
  | _ :: rest => appliedVelocities rest

/-- The velocity command already pending in state `s` that the run `reqs` applies:
the stored `cmd_vel_` when `newvel_` is set and the run starts with a tick. -/
def pendingVelocity (s : Node) : List Request → List (List JointValue)
  | Request.tick _ _ :: _ => if s.newvel_ then [s.cmd_vel_] else []
  | _ => []

/-- The number of direct commands in a sequence of requests. -/
def submissions : List Request → Nat
  | [] => 0
  | Request.command _ :: rest => submissions rest + 1
  | _ :: rest => submissions rest

/-- A request that is a tick, or a direct command with at least one point. -/
def isTickOrCommand : Request → Bool
  | Request.tick _ _ => true
  | Request.command msg => !msg.points.isEmpty
  | _ => false

/-! ## Lemmas on single ticks and runs -/

theorem moveTargets_append (a b : List PCubeCall) :
    moveTargets (a ++ b) = moveTargets a ++ moveTargets b := by
  induction a with
  | nil => rfl
  | cons c cs ih => cases c <;> simp [moveTargets, ih]

theorem tick_moving (s : Node) (ret : Bool) (hm : s.OperationMode = "position") :
    updatePCubeCommands s true ret = (s, []) := by
  simp [updatePCubeCommands, hm]

theorem tick_advance (s : Node) (ret : Bool) (hi : s.isInitialized_ = true)
    (hm : s.OperationMode = "position") (hc : s.traj_point_nr_ < s.traj_.points.length) :
    updatePCubeCommands s false ret =
      ({ s with traj_point_ := s.traj_.points.get ⟨s.traj_point_nr_, hc⟩,
                traj_point_nr_ := s.traj_point_nr_ + 1 },
        [PCubeCall.MoveJointSpaceSync (s.traj_.points.get ⟨s.traj_point_nr_, hc⟩).positions]) := by
  simp [updatePCubeCommands, hi, hm, hc]

theorem tick_finish (s : Node) (ret : Bool) (hi : s.isInitialized_ = true)
    (hm : s.OperationMode = "position") (hc : ¬ s.traj_point_nr_ < s.traj_.points.length) :
    updatePCubeCommands s false ret = ({ s with finished_ := true }, []) := by
  simp [updatePCubeCommands, hi, hm, hc]

theorem run_tick_cons (s : Node) (mv ret : Bool) (rest : List (Bool × Bool)) :
    run s (ticks ((mv, ret) :: rest)) =
      ((updatePCubeCommands s mv ret).2 :: (run (updatePCubeCommands s mv ret).1 (ticks rest)).1,
        (run (updatePCubeCommands s mv ret).1 (ticks rest)).2) := by
  simp [ticks, run, step]

theorem run_ticks_position (replies : List (Bool × Bool)) :
    ∀ s : Node, s.isInitialized_ = true → s.OperationMode = "position" →
      ∃ s1 : Node, (run s (ticks replies)).2 = some s1 ∧
        s1.traj_ = s.traj_ ∧ s1.isInitialized_ = true ∧ s1.OperationMode = "position" ∧
        s.traj_point_nr_ ≤ s1.traj_point_nr_ ∧
        (s.traj_point_nr_ ≤ s.traj_.points.length →
          s1.traj_point_nr_ ≤ s.traj_.points.length) ∧
        moveTargets (run s (ticks replies)).1.flatten =
          (((s.traj_.points.drop s.traj_point_nr_).take
            (s1.traj_point_nr_ - s.traj_point_nr_)).map (fun p => p.positions)) ∧
        (∀ x ∈ replies.zip (run s (ticks replies)).1, x.2 ≠ [] → x.1.1 = false) ∧
        (s1.finished_ = true →
          s.finished_ = true ∨ s.traj_.points.length ≤ s1.traj_point_nr_) := by
  induction replies with
  | nil =>
    intro s hi hm
    exact ⟨s, by simp [ticks, run], rfl, hi, hm, le_refl _, fun h => h,
      by simp [ticks, run, moveTargets], by simp [ticks, run], fun h => Or.inl h⟩
  | cons r rest ih =>
    intro s hi hm
    obtain ⟨mv, ret⟩ := r
    rw [run_tick_cons]
    cases mv with
    | true =>
      rw [tick_moving s ret hm]
      obtain ⟨s1, h1, h2, h3, h4, h5, h6, h7, h8, h9⟩ := ih s hi hm
      refine ⟨s1, h1, h2, h3, h4, h5, h6, ?_, ?_, h9⟩
      · simpa [moveTargets] using h7
      · intro x hx
        simp only [List.zip_cons_cons, List.mem_cons] at hx
        rcases hx with hx | hx
        · subst hx; simp
        · exact h8 x hx
    | false =>
      by_cases hc : s.traj_point_nr_ < s.traj_.points.length
      · have e := tick_advance s ret hi hm hc
        obtain ⟨s1, h1, h2, h3, h4, h5, h6, h7, h8, h9⟩ :=
          ih (updatePCubeCommands s false ret).1 (by rw [e]; exact hi) (by rw [e]; exact hm)
        rw [e] at h1 h2 h5 h6 h7 h8 h9
        rw [e]
        dsimp only at h1 h2 h5 h6 h7 h8 h9 ⊢
        refine ⟨s1, h1, h2, h3, h4, by omega, fun _ => h6 (by omega), ?_, ?_, ?_⟩
        · have hk : s1.traj_point_nr_ - s.traj_point_nr_ =
              (s1.traj_point_nr_ - (s.traj_point_nr_ + 1)) + 1 := by omega
          rw [List.flatten_cons, moveTargets_append, h7, hk, List.drop_eq_getElem_cons hc,
            List.take_succ_cons]
          simp [moveTargets]
        · intro x hx
          simp only [List.zip_cons_cons, List.mem_cons] at hx
          rcases hx with hx | hx
          · subst hx; simp
          · exact h8 x hx
        · intro hf
          exact h9 hf
      · have e := tick_finish s ret hi hm hc
        obtain ⟨s1, h1, h2, h3, h4, h5, h6, h7, h8, h9⟩ :=
          ih (updatePCubeCommands s false ret).1 (by rw [e]; exact hi) (by rw [e]; exact hm)
        rw [e] at h1 h2 h5 h6 h7 h8 h9
        rw [e]
        dsimp only at h1 h2 h5 h6 h7 h8 h9 ⊢
        refine ⟨s1, h1, h2, h3, h4, h5, h6, ?_, ?_, ?_⟩
        · simpa [moveTargets] using h7
        · intro x hx
          simp only [List.zip_cons_cons, List.mem_cons] at hx
          rcases hx with hx | hx
          · subst hx; simp
          · exact h8 x hx
        · intro _
          exact Or.inr (by omega)

/-- In position mode, from a cursor within the trajectory, each tick that observes
not-moving either advances the cursor by one or, at the end, sets the finished flag:
after the ticks the cursor is the start plus the number of not-moving ticks, capped
at the length, and the flag is set exactly when it was set before or the not-moving
ticks outnumber the points that were left. -/
theorem run_ticks_position_cursor (replies : List (Bool × Bool)) :
    ∀ s s1 : Node, s.isInitialized_ = true → s.OperationMode = "position" →
      s.traj_point_nr_ ≤ s.traj_.points.length →
      (run s (ticks replies)).2 = some s1 →
      s1.traj_point_nr_ = min (s.traj_point_nr_ + notMoving replies) s.traj_.points.length ∧
      (s1.finished_ = true ↔
        s.finished_ = true ∨ s.traj_.points.length < s.traj_point_nr_ + notMoving replies) := by
  induction replies with
  | nil =>
    intro s s1 _ _ hc h
    simp only [ticks, List.map_nil, run, Option.some.injEq] at h
    subst h
    simp only [notMoving, Nat.add_zero]
    exact ⟨(Nat.min_eq_left hc).symm, fun h => Or.inl h,
      fun h => h.elim id (fun h => absurd h (by omega))⟩
  | cons r rest ih =>
    intro s s1 hi hm hc h
    obtain ⟨mv, ret⟩ := r
    rw [run_tick_cons] at h
    cases mv with
    | true =>
      rw [tick_moving s ret hm] at h
      simpa [notMoving] using ih s s1 hi hm hc h
    | false =>
      by_cases hlt : s.traj_point_nr_ < s.traj_.points.length
      · have e := tick_advance s ret hi hm hlt
        have g := ih (updatePCubeCommands s false ret).1 s1 (by rw [e]; exact hi)
          (by rw [e]; exact hm) (by rw [e]; exact hlt) h
        rw [e] at g
        dsimp only at g
        simp only [notMoving, Bool.false_eq_true, if_false]
        constructor
        · rw [g.1]; congr 1; omega
        · rw [g.2]
          constructor
          · rintro (h1 | h1)
            · exact Or.inl h1
            · exact Or.inr (by omega)
          · rintro (h1 | h1)
            · exact Or.inl h1
            · exact Or.inr (by omega)
      · have e := tick_finish s ret hi hm hlt
        have g := ih (updatePCubeCommands s false ret).1 s1 (by rw [e]; exact hi)
          (by rw [e]; exact hm) (by rw [e]; exact hc) h
        rw [e] at g
        dsimp only at g
        simp only [notMoving, Bool.false_eq_true, if_false]
        have heq : s.traj_point_nr_ = s.traj_.points.length := by omega
        constructor
        · rw [g.1, heq]; simp
        · rw [g.2]
          constructor
          · intro _; exact Or.inr (by omega)
          · intro _; exact Or.inl rfl

/-- On an initialised node `executeCB` accepts a trajectory with at least one point:
it stores the trajectory, resets the cursor and the finished flag, stops the arm with
a zero-velocity command and goes on into its wait loop. -/
theorem executeCB_entry_accept (s0 : Node) (T : JointTrajectory) (isPreemptRequested : Bool)
    (hi : s0.isInitialized_ = true) (hL : 1 ≤ T.points.length) :
    ∃ e, executeCB_entry s0 T isPreemptRequested = some e ∧ e.waiting = true ∧
      e.node.traj_ = T ∧ e.node.traj_point_nr_ = 0 ∧ e.node.finished_ = false ∧
      moveTargets e.hw = [] ∧ e.node.isInitialized_ = s0.isInitialized_ ∧
      e.node.OperationMode = s0.OperationMode := by
  cases h : T.points with
  | nil => rw [h] at hL; simp at hL
  | cons p ps =>
    simp [executeCB_entry, hi, h, moveTargets]

theorem step_exhausted (s : Node) (r : Request) (q : Node × List PCubeCall)
    (hx : s.traj_.points.length ≤ s.traj_point_nr_) (hs : step s r = some q) :
    q.1.traj_.points.length ≤ q.1.traj_point_nr_ ∧ moveTargets q.2 = [] := by
  cases r with
  | tick mv ret =>
    have hc : ¬ s.traj_point_nr_ < s.traj_.points.length := by omega
    simp only [step, Option.some.injEq] at hs
    subst hs
    simp only [updatePCubeCommands, hc, dite_false]
    split_ifs <;> simp [moveTargets, hx]
  | command msg =>
    cases hp : msg.points with
    | nil => simp [step, topicCallback_DirectCommand, hp] at hs
    | cons p ps =>
      simp only [step, topicCallback_DirectCommand, hp, Option.map_some',
        Option.some.injEq] at hs
      subst hs
      simp [moveTargets, hx]
  | init ret err =>
    simp only [step, Option.some.injEq] at hs
    subst hs
    simp only [srvCallback_Init]
    split_ifs <;> simp [moveTargets, hx]
  | stop ret err =>
    simp only [step, Option.some.injEq] at hs
    subst hs
    simp only [srvCallback_Stop]
    split_ifs <;> simp [moveTargets]
  | recover ret err =>
    simp only [step, Option.some.injEq] at hs
    subst hs
    simp only [srvCallback_Recover]
    split_ifs <;> simp [moveTargets, hx]
  | setOperationMode m =>
    simp only [step, Option.some.injEq] at hs
    subst hs
    simp [srvCallback_SetOperationMode, moveTargets, hx]

theorem run_exhausted (reqs : List Request) :
    ∀ s : Node, s.traj_.points.length ≤ s.traj_point_nr_ →
      moveTargets (run s reqs).1.flatten = [] := by
  induction reqs with
  | nil => intro s _; simp [run, moveTargets]
  | cons r rs ih =>
    intro s hx
    cases hs : step s r with
    | none => simp [run, hs, moveTargets]
    | some q =>
      obtain ⟨h1, h2⟩ := step_exhausted s r q hx hs
      simp [run, hs, moveTargets_append, h2, ih q.1 h1]

theorem velTargets_append (a b : List PCubeCall) :
    velTargets (a ++ b) = velTargets a ++ velTargets b := by
  induction a with
  | nil => rfl
  | cons c cs ih => cases c <;> simp [velTargets, ih]

theorem appliedVelocities_length_le (reqs : List Request) :
    (appliedVelocities reqs).length ≤ submissions reqs := by
  induction reqs with
  | nil => simp [appliedVelocities, submissions]
  | cons r rest ih =>
    cases r with
    | command msg =>
      cases rest with
      | nil => simp [appliedVelocities, submissions]
      | cons r2 rest2 =>
        cases r2 <;> simp only [appliedVelocities, submissions, List.length_cons] at ih ⊢ <;> omega
    | _ => simpa [appliedVelocities, submissions] using ih

theorem run_velocity (reqs : List Request) :
    ∀ s : Node, s.isInitialized_ = true → s.OperationMode = "velocity" →
      (∀ r ∈ reqs, isTickOrCommand r = true) →
      ∃ s1 : Node, (run s reqs).2 = some s1 ∧
        s1.isInitialized_ = true ∧ s1.OperationMode = "velocity" ∧
        s1.traj_ = s.traj_ ∧ s1.traj_point_nr_ = s.traj_point_nr_ ∧
        s1.finished_ = s.finished_ ∧
        moveTargets (run s reqs).1.flatten = [] ∧
        velTargets (run s reqs).1.flatten = pendingVelocity s reqs ++ appliedVelocities reqs := by
  induction reqs with
  | nil =>
    intro s hi hm _
    exact ⟨s, rfl, hi, hm, rfl, rfl, rfl, rfl, rfl⟩
  | cons r rest ih =>
    intro s hi hm hr
    have hrest : ∀ r ∈ rest, isTickOrCommand r = true :=
      fun x hx => hr x (List.mem_cons_of_mem _ hx)
    have hr0 := hr r (List.mem_cons_self _ _)
    cases r with
    | tick mv ret =>
      by_cases hn : s.newvel_ = true
      · have e : updatePCubeCommands s mv ret =
            ({ s with newvel_ := false }, [PCubeCall.MoveVel s.cmd_vel_]) := by
          simp [updatePCubeCommands, hi, hm, hn]
        obtain ⟨s1, h1, h2, h3, h4, h5, h6, h7, h8⟩ :=
          ih (updatePCubeCommands s mv ret).1 (by rw [e]; exact hi) (by rw [e]; exact hm) hrest
        rw [e] at h1 h4 h5 h6 h7 h8
        dsimp only at h1 h4 h5 h6 h7 h8
        have hp : pendingVelocity { s with newvel_ := false } rest = [] := by
          cases rest with
          | nil => rfl
          | cons r2 _ => cases r2 <;> simp [pendingVelocity]
        refine ⟨s1, ?_, h2, h3, h4, h5, h6, ?_, ?_⟩
        · simp only [run, step, e]; exact h1
        · simp only [run, step, e, List.flatten_cons, moveTargets_append, h7]
          simp [moveTargets]
        · simp only [run, step, e, List.flatten_cons, velTargets_append, h8, hp]
          simp [velTargets, pendingVelocity, hn, appliedVelocities]
      · have e : updatePCubeCommands s mv ret = (s, []) := by
          simp [updatePCubeCommands, hi, hm, hn]
        obtain ⟨s1, h1, h2, h3, h4, h5, h6, h7, h8⟩ := ih s hi hm hrest
        have hp : pendingVelocity s rest = [] := by
          cases rest with
          | nil => rfl
          | cons r2 _ => cases r2 <;> simp [pendingVelocity, hn]
        refine ⟨s1, ?_, h2, h3, h4, h5, h6, ?_, ?_⟩
        · simp only [run, step, e]; exact h1
        · simp only [run, step, e, List.flatten_cons, moveTargets_append, h7]
          simp [moveTargets]
        · simp only [run, step, e, List.flatten_cons, velTargets_append, h8, hp]
          simp [velTargets, pendingVelocity, hn, appliedVelocities]
    | command msg =>
      cases hp : msg.points with
      | nil => simp [isTickOrCommand, hp] at hr0
      | cons p ps =>
        have e : step s (Request.command msg) =
            some ({ s with newvel_ := true, cmd_vel_ := p.velocities }, []) := by
          simp [step, topicCallback_DirectCommand, hp]
        obtain ⟨s1, h1, h2, h3, h4, h5, h6, h7, h8⟩ :=
          ih { s with newvel_ := true, cmd_vel_ := p.velocities } hi hm hrest
        dsimp only at h4 h5 h6
        refine ⟨s1, ?_, h2, h3, h4, h5, h6, ?_, ?_⟩
        · simp only [run, e]; exact h1
        · simp only [run, e, List.flatten_cons, moveTargets_append, h7]
          simp [moveTargets]
        · simp only [run, e, List.flatten_cons, velTargets_append, h8]
          cases rest with
          | nil => simp [velTargets, pendingVelocity, appliedVelocities]
          | cons r2 rest2 =>
            cases r2 <;> simp [velTargets, pendingVelocity, appliedVelocities, hp]
    | init ret err => simp [isTickOrCommand] at hr0
    | stop ret err => simp [isTickOrCommand] at hr0
    | recover ret err => simp [isTickOrCommand] at hr0
    | setOperationMode m => simp [isTickOrCommand] at hr0

/-! ## Claims -/

/-- C1: on an initialised node in position mode, after `executeCB` has stored a
trajectory `T` with at least one point, any sequence of ticks issues as
`MoveJointSpaceSync` targets exactly `T[0].positions, T[1].positions, ...`, one for
each tick that observed not-moving until all `length T` are sent: after `k`
not-moving ticks the cursor is `min k (length T)` and the targets issued are those of
the first `min k (length T)` points, never more than `length T`; a tick that issues
a call observed not-moving; `finished_` is set exactly when more than `length T`
ticks observed not-moving, and once it is set exactly `length T` targets have been
issued and further ticks issue none. -/
theorem executeCB_ticks_issue_points_in_order (s0 : Node) (T : JointTrajectory)
    (isPreemptRequested : Bool) (replies later : List (Bool × Bool))
    (hi : s0.isInitialized_ = true) (hm : s0.OperationMode = "position")
    (hL : 1 ≤ T.points.length) :
    ∃ e s1, executeCB_entry s0 T isPreemptRequested = some e ∧
      e.waiting = true ∧ e.node.traj_ = T ∧ e.node.traj_point_nr_ = 0 ∧
      e.node.finished_ = false ∧ moveTargets e.hw = [] ∧
      (run e.node (ticks replies)).2 = some s1 ∧
      s1.traj_point_nr_ = min (notMoving replies) T.points.length ∧
      moveTargets (run e.node (ticks replies)).1.flatten =
        (T.points.take (min (notMoving replies) T.points.length)).map
          (fun p => p.positions) ∧
      (moveTargets (run e.node (ticks replies)).1.flatten).length =
        min (notMoving replies) T.points.length ∧
      (moveTargets (run e.node (ticks replies)).1.flatten).length ≤ T.points.length ∧
      (∀ x ∈ replies.zip (run e.node (ticks replies)).1, x.2 ≠ [] → x.1.1 = false) ∧
      (s1.finished_ = true ↔ T.points.length < notMoving replies) ∧
      (s1.finished_ = true →
        (moveTargets (run e.node (ticks replies)).1.flatten).length = T.points.length ∧
        moveTargets (run s1 (ticks later)).1.flatten = []) := by
  obtain ⟨e, he, hw, ht, hn, hf, hhw, hei, hem⟩ :=
    executeCB_entry_accept s0 T isPreemptRequested hi hL
  obtain ⟨s1, h1, h2, h3, h4, _, h6, h7, h8, h9⟩ :=
    run_ticks_position replies e.node (by rw [hei, hi]) (by rw [hem, hm])
  obtain ⟨k1, k2⟩ := run_ticks_position_cursor replies e.node s1 (by rw [hei, hi])
    (by rw [hem, hm]) (by rw [hn]; exact Nat.zero_le _) h1
  rw [ht, hn, Nat.zero_add] at k1 k2
  rw [hf] at k2
  rw [ht, hn] at h6 h7
  rw [ht] at h2 h9
  rw [hf] at h9
  have h6' := h6 (Nat.zero_le _)
  have hmv : moveTargets (run e.node (ticks replies)).1.flatten =
      (T.points.take s1.traj_point_nr_).map (fun p => p.positions) := by
    rw [h7]; simp
  have hlen : (moveTargets (run e.node (ticks replies)).1.flatten).length =
      s1.traj_point_nr_ := by
    rw [hmv]; simp; exact h6'
  have hfin : s1.finished_ = true ↔ T.points.length < notMoving replies := by
    rw [k2]; simp
  refine ⟨e, s1, he, hw, ht, hn, hf, hhw, h1, k1, by rw [hmv, k1], by rw [hlen, k1], ?_,
    h8, hfin, ?_⟩
  · rw [hlen]; exact h6'
  · intro hfin1
    have hk : T.points.length ≤ s1.traj_point_nr_ := by
      rcases h9 hfin1 with h | h
      · simp at h
      · exact h
    refine ⟨by rw [hlen]; omega, ?_⟩
    obtain ⟨s2, _, _, _, _, _, _, g7, _, _⟩ := run_ticks_position later s1 h3 h4
    rw [g7, h2, List.drop_eq_nil_of_le hk]
    simp

/-- Witness for C1: the two-point scenario with the replies `scenarioReplies` (three
not-moving ticks among four), then one more tick.  The targets issued are
`[0, 0]` then `[1, 1]`, each on a not-moving tick, and the finished flag is set. -/
theorem executeCB_ticks_issue_points_in_order_witness :
    idlePos.isInitialized_ = true ∧ idlePos.OperationMode = "position" ∧
    1 ≤ T2.points.length ∧
    (executeCB_entry idlePos T2 false).map
        (fun e => ((run e.node (ticks scenarioReplies)).1,
          (run e.node (ticks scenarioReplies)).2.map
            (fun s1 => (s1.traj_point_nr_, s1.finished_)))) =
      some ([[PCubeCall.MoveJointSpaceSync [0, 0]], [],
              [PCubeCall.MoveJointSpaceSync [1, 1]], []], some (2, true)) ∧
    ∃ e s1, executeCB_entry idlePos T2 false = some e ∧
      e.waiting = true ∧ e.node.traj_ = T2 ∧ e.node.traj_point_nr_ = 0 ∧
      e.node.finished_ = false ∧ moveTargets e.hw = [] ∧
      (run e.node (ticks scenarioReplies)).2 = some s1 ∧
      s1.traj_point_nr_ = min (notMoving scenarioReplies) T2.points.length ∧
      moveTargets (run e.node (ticks scenarioReplies)).1.flatten =
        (T2.points.take (min (notMoving scenarioReplies) T2.points.length)).map
          (fun p => p.positions) ∧
      (moveTargets (run e.node (ticks scenarioReplies)).1.flatten).length =
        min (notMoving scenarioReplies) T2.points.length ∧
      (moveTargets (run e.node (ticks scenarioReplies)).1.flatten).length
        ≤ T2.points.length ∧
      (∀ x ∈ scenarioReplies.zip (run e.node (ticks scenarioReplies)).1,
        x.2 ≠ [] → x.1.1 = false) ∧
      (s1.finished_ = true ↔ T2.points.length < notMoving scenarioReplies) ∧
      (s1.finished_ = true →
        (moveTargets (run e.node (ticks scenarioReplies)).1.flatten).length
          = T2.points.length ∧
        moveTargets (run s1 (ticks [(false, true)])).1.flatten = []) :=
  ⟨by decide, by decide, by decide, by decide,
    executeCB_ticks_issue_points_in_order idlePos T2 false scenarioReplies [(false, true)]
      (by decide) (by decide) (by decide)⟩

/-- C2 fails as stated: on the initialised idle node a goal `T2` is accepted without a
preempt request, and when its wait loop (finished flag false) sees a new goal
available, the only report made for it is `setAborted`, not `setPreempted`. -/
theorem executeCB_newGoal_reports_aborted_example :
    (executeCB_entry idlePos T2 false).map (fun e => (e.waiting, e.node.finished_, e.as))
      = some (true, false, []) ∧
    executeCB_wait [(false, true)] = some ActionCall.setAborted ∧
    executeCB_wait [(false, true)] ≠ some ActionCall.setPreempted := by
  decide

/-- C2 as amended: while the wait loop of `executeCB` is running with the finished
flag false, the first pass that finds a new goal available ends the wait, and the
outcome reported is Aborted, which is distinct from both Preempted and Succeeded. -/
theorem executeCB_wait_newGoal_aborted (n : Nat) (rest : List (Bool × Bool)) :
    executeCB_wait (List.replicate n (false, false) ++ (false, true) :: rest)
      = some ActionCall.setAborted ∧
    ActionCall.setAborted ≠ ActionCall.setPreempted ∧
    ActionCall.setAborted ≠ ActionCall.setSucceeded := by
  refine ⟨?_, by decide, by decide⟩
  induction n with
  | zero => simp [executeCB_wait, executeCB_poll]
  | succ k ih => simpa [List.replicate_succ, executeCB_wait, executeCB_poll] using ih

/-- C3: on a node that is not initialised, `executeCB` reports the goal aborted
(rejected) and returns at once; it issues no driver call and leaves the whole node
state (stored trajectory, cursor, finished flag, velocity command and its dirty
flag) as it was. -/
theorem executeCB_rejects_uninitialized (s : Node) (goal : JointTrajectory)
    (isPreemptRequested : Bool) (hi : s.isInitialized_ = false) :
    ∃ e, executeCB_entry s goal isPreemptRequested = some e ∧
      e.as = [ActionCall.setAborted] ∧ e.waiting = false ∧ e.hw = [] ∧
      e.node.traj_ = s.traj_ ∧ e.node.traj_point_nr_ = s.traj_point_nr_ ∧
      e.node.finished_ = s.finished_ ∧ e.node.cmd_vel_ = s.cmd_vel_ ∧
      e.node.newvel_ = s.newvel_ ∧ e.node = s := by
  simp [executeCB_entry, hi]

/-- Witness for C3: the node as constructed rejects the two-point trajectory. -/
theorem executeCB_rejects_uninitialized_witness :
    fresh.isInitialized_ = false ∧
    ∃ e, executeCB_entry fresh T2 true = some e ∧
      e.as = [ActionCall.setAborted] ∧ e.waiting = false ∧ e.hw = [] ∧
      e.node.traj_ = fresh.traj_ ∧ e.node.traj_point_nr_ = fresh.traj_point_nr_ ∧
      e.node.finished_ = fresh.finished_ ∧ e.node.cmd_vel_ = fresh.cmd_vel_ ∧
      e.node.newvel_ = fresh.newvel_ ∧ e.node = fresh :=
  ⟨by decide, executeCB_rejects_uninitialized fresh T2 true (by decide)⟩

/-- C4, the behaviour of the code on an empty trajectory: on every initialised node
`executeCB` reads `traj_.points[0]` of the empty vector it has just stored, before it
reaches the wait loop or reports anything. -/
theorem executeCB_empty_trajectory_out_of_range (s : Node) (isPreemptRequested : Bool) :
    executeCB_entry { s with isInitialized_ := true } { points := [] } isPreemptRequested
      = none := by
  simp [executeCB_entry]

/-- C5: from any state, after `srvCallback_Stop` (whatever `PCube_->Stop` returns) no
`MoveJointSpaceSync` call is issued, neither by the stop itself nor by any following
sequence of ticks, direct commands, init, stop, recover and mode-change requests. -/
theorem stop_exhausts_trajectory (s : Node) (ret : Bool) (err : String)
    (reqs : List Request) :
    moveTargets (srvCallback_Stop s ret err).2.1 = [] ∧
    (srvCallback_Stop s ret err).1.traj_point_nr_ =
      (srvCallback_Stop s ret err).1.traj_.points.length ∧
    moveTargets (run (srvCallback_Stop s ret err).1 reqs).1.flatten = [] := by
  have h : (srvCallback_Stop s ret err).1.traj_point_nr_ =
      (srvCallback_Stop s ret err).1.traj_.points.length := by
    simp only [srvCallback_Stop]; split_ifs <;> rfl
  refine ⟨?_, h, run_exhausted reqs _ (le_of_eq h.symm)⟩
  simp only [srvCallback_Stop]; split_ifs <;> simp [moveTargets]

/-- C6 fails as stated: `srvCallback_Stop` is called while `T2` is executing (cursor 1
of 2, finished flag false); the next tick that observes not-moving sets `finished_`
and the wait loop of `executeCB` then reports the goal Succeeded, not Aborted. -/
theorem stop_while_executing_reports_succeeded_example :
    midPos.traj_point_nr_ < midPos.traj_.points.length ∧ midPos.finished_ = false ∧
    (updatePCubeCommands (srvCallback_Stop midPos true "").1 false true).1.finished_ = true ∧
    executeCB_wait [((srvCallback_Stop midPos true "").1.finished_, false),
        ((updatePCubeCommands (srvCallback_Stop midPos true "").1 false true).1.finished_, false)]
      = some ActionCall.setSucceeded := by
  decide

/-- C6 as amended: when `srvCallback_Stop` is called on an initialised node in position
mode while a goal is executing (cursor below the length, finished flag false), the
cursor is forced to the length, past the points not yet sent, and the finished flag
stays false, so the wait loop
keeps waiting; the next tick that observes not-moving issues no call and sets the
finished flag, and a pass of the wait loop that reads it reports Succeeded. -/
theorem stop_while_executing_ends_succeeded (s : Node) (ret ret2 ng : Bool) (err : String)
    (hi : s.isInitialized_ = true) (hm : s.OperationMode = "position")
    (hc : s.traj_point_nr_ < s.traj_.points.length) (hf : s.finished_ = false) :
    (srvCallback_Stop s ret err).1.traj_point_nr_ = s.traj_.points.length ∧
    s.traj_point_nr_ < (srvCallback_Stop s ret err).1.traj_point_nr_ ∧
    (srvCallback_Stop s ret err).1.finished_ = false ∧
    executeCB_poll (srvCallback_Stop s ret err).1.finished_ false = none ∧
    (updatePCubeCommands (srvCallback_Stop s ret err).1 false ret2).2 = [] ∧
    (updatePCubeCommands (srvCallback_Stop s ret err).1 false ret2).1.finished_ = true ∧
    executeCB_poll (updatePCubeCommands (srvCallback_Stop s ret err).1 false ret2).1.finished_ ng
      = some ActionCall.setSucceeded := by
  have hs : (srvCallback_Stop s ret err).1 =
      { s with newvel_ := false, traj_point_nr_ := s.traj_.points.length } := by
    simp only [srvCallback_Stop]; split_ifs <;> rfl
  have ht : updatePCubeCommands (srvCallback_Stop s ret err).1 false ret2 =
      ({ (srvCallback_Stop s ret err).1 with finished_ := true }, []) := by
    apply tick_finish
    · rw [hs]; exact hi
    · rw [hs]; exact hm
    · rw [hs]; simp
  rw [ht, hs]
  simp [executeCB_poll, hf, hc]

/-- Witness for C6 as amended: stop while `T2` is executing with one point sent. -/
theorem stop_while_executing_ends_succeeded_witness :
    midPos.isInitialized_ = true ∧ midPos.OperationMode = "position" ∧
    midPos.traj_point_nr_ < midPos.traj_.points.length ∧ midPos.finished_ = false ∧
    ((srvCallback_Stop midPos false "fault").1.traj_point_nr_ = midPos.traj_.points.length ∧
    midPos.traj_point_nr_ < (srvCallback_Stop midPos false "fault").1.traj_point_nr_ ∧
    (srvCallback_Stop midPos false "fault").1.finished_ = false ∧
    executeCB_poll (srvCallback_Stop midPos false "fault").1.finished_ false = none ∧
    (updatePCubeCommands (srvCallback_Stop midPos false "fault").1 false true).2 = [] ∧
    (updatePCubeCommands (srvCallback_Stop midPos false "fault").1 false true).1.finished_
      = true ∧
    executeCB_poll
        (updatePCubeCommands (srvCallback_Stop midPos false "fault").1 false true).1.finished_
        false
      = some ActionCall.setSucceeded) :=
  ⟨by decide, by decide, by decide, by decide,
    stop_while_executing_ends_succeeded midPos false true false "fault"
      (by decide) (by decide) (by decide) (by decide)⟩

/-- C7 fails as stated: with `T2` executing at its last point, the tick whose
`MoveJointSpaceSync` call reports failure still advances the cursor past that point;
the next not-moving tick sets `finished_` and the wait loop reports Succeeded. -/
theorem failed_move_goes_on_to_succeeded_example :
    midPos.isInitialized_ = true ∧ midPos.OperationMode = "position" ∧
    midPos.traj_point_nr_ < midPos.traj_.points.length ∧
    (updatePCubeCommands midPos false false).2 = [PCubeCall.MoveJointSpaceSync [1, 1]] ∧
    (updatePCubeCommands midPos false false).1.traj_point_nr_ = midPos.traj_point_nr_ + 1 ∧
    executeCB_wait [((updatePCubeCommands midPos false false).1.finished_, false),
        ((updatePCubeCommands (updatePCubeCommands midPos false false).1 false true).1.finished_,
          false)]
      = some ActionCall.setSucceeded := by
  decide

/-- C7 as amended: on an initialised node in position mode with the hardware not
moving and the cursor below the length, the tick discards what `MoveJointSpaceSync`
returns: whether the call reports success or failure, the tick issues the call for
the point at the cursor, advances the cursor by one and leaves the trajectory and the
finished flag as they were; when that point was the last one, the next not-moving
tick sets the finished flag and a pass of the wait loop that reads it reports
Succeeded. -/
theorem tick_discards_move_result (s : Node) (ret ret2 ng : Bool)
    (hi : s.isInitialized_ = true) (hm : s.OperationMode = "position")
    (hc : s.traj_point_nr_ < s.traj_.points.length) :
    updatePCubeCommands s false ret = updatePCubeCommands s false true ∧
    (updatePCubeCommands s false ret).2 =
      [PCubeCall.MoveJointSpaceSync (s.traj_.points.get ⟨s.traj_point_nr_, hc⟩).positions] ∧
    (updatePCubeCommands s false ret).1.traj_point_nr_ = s.traj_point_nr_ + 1 ∧
    (updatePCubeCommands s false ret).1.traj_ = s.traj_ ∧
    (updatePCubeCommands s false ret).1.finished_ = s.finished_ ∧
    (s.traj_point_nr_ + 1 = s.traj_.points.length →
      executeCB_poll
          (updatePCubeCommands (updatePCubeCommands s false ret).1 false ret2).1.finished_ ng
        = some ActionCall.setSucceeded) := by
  refine ⟨?_, ?_, ?_, ?_, ?_, ?_⟩
  · rw [tick_advance s ret hi hm hc, tick_advance s true hi hm hc]
  · rw [tick_advance s ret hi hm hc]
  · rw [tick_advance s ret hi hm hc]
  · rw [tick_advance s ret hi hm hc]
  · rw [tick_advance s ret hi hm hc]
  · intro hl
    have ht : updatePCubeCommands (updatePCubeCommands s false ret).1 false ret2 =
        ({ (updatePCubeCommands s false ret).1 with finished_ := true }, []) := by
      apply tick_finish
      · rw [tick_advance s ret hi hm hc]; exact hi
      · rw [tick_advance s ret hi hm hc]; exact hm
      · rw [tick_advance s ret hi hm hc]; simp [hl]
    rw [ht]
    simp [executeCB_poll]

/-- Witness for C7 as amended: the failing move at the last point of `T2`. -/
theorem tick_discards_move_result_witness :
    midPos.isInitialized_ = true ∧ midPos.OperationMode = "position" ∧
    ∃ hc : midPos.traj_point_nr_ < midPos.traj_.points.length,
    updatePCubeCommands midPos false false = updatePCubeCommands midPos false true ∧
    (updatePCubeCommands midPos false false).2 =
      [PCubeCall.MoveJointSpaceSync
        (midPos.traj_.points.get ⟨midPos.traj_point_nr_, hc⟩).positions] ∧
    (updatePCubeCommands midPos false false).1.traj_point_nr_ = midPos.traj_point_nr_ + 1 ∧
    (updatePCubeCommands midPos false false).1.traj_ = midPos.traj_ ∧
    (updatePCubeCommands midPos false false).1.finished_ = midPos.finished_ ∧
    (midPos.traj_point_nr_ + 1 = midPos.traj_.points.length →
      executeCB_poll
          (updatePCubeCommands (updatePCubeCommands midPos false false).1 false true).1.finished_
          false
        = some ActionCall.setSucceeded) :=
  ⟨by decide, by decide, by decide,
    tick_discards_move_result midPos false true false (by decide) (by decide) (by decide)⟩

/-- C8 fails as stated: in velocity mode on an initialised node with nothing pending,
two submissions of `cmdV` followed by one tick yield one `MoveVel` call, not two. -/
theorem two_submissions_one_call_example :
    idleVel.isInitialized_ = true ∧ idleVel.OperationMode = "velocity" ∧
    submissions [Request.command cmdV, Request.command cmdV, Request.tick false true] = 2 ∧
    velTargets
        (run idleVel
          [Request.command cmdV, Request.command cmdV, Request.tick false true]).1.flatten
      = [[3, -2]] := by
  decide

/-- C8 as amended: in velocity mode on an initialised node with no velocity command
pending, every interleaving of direct commands (each with at least one point) and
ticks runs without fault and issues one `MoveVel` call for each tick that directly
follows a command, with the velocities of that command; the number of calls is at
most the number of commands. -/
theorem velocity_calls_follow_dirty_flag (s : Node) (reqs : List Request)
    (hi : s.isInitialized_ = true) (hm : s.OperationMode = "velocity")
    (hn : s.newvel_ = false) (hr : ∀ r ∈ reqs, isTickOrCommand r = true) :
    (∃ s1, (run s reqs).2 = some s1) ∧
    velTargets (run s reqs).1.flatten = appliedVelocities reqs ∧
    (velTargets (run s reqs).1.flatten).length ≤ submissions reqs := by
  obtain ⟨s1, h1, _, _, _, _, _, _, h8⟩ := run_velocity reqs s hi hm hr
  have hp : pendingVelocity s reqs = [] := by
    cases reqs with
    | nil => rfl
    | cons r _ => cases r <;> simp [pendingVelocity, hn]
  rw [hp, List.nil_append] at h8
  refine ⟨⟨s1, h1⟩, h8, ?_⟩
  rw [h8]
  exact appliedVelocities_length_le reqs

/-- Witness for C8 as amended: `cmdV`, tick, `cmdV`, tick yields two `MoveVel`
calls. -/
theorem velocity_calls_follow_dirty_flag_witness :
    idleVel.isInitialized_ = true ∧ idleVel.OperationMode = "velocity" ∧
    idleVel.newvel_ = false ∧
    appliedVelocities [Request.command cmdV, Request.tick false true,
      Request.command cmdV, Request.tick true true] = [[3, -2], [3, -2]] ∧
    ((∃ s1, (run idleVel [Request.command cmdV, Request.tick false true,
      Request.command cmdV, Request.tick true true]).2 = some s1) ∧
    velTargets (run idleVel [Request.command cmdV, Request.tick false true,
        Request.command cmdV, Request.tick true true]).1.flatten =
      appliedVelocities [Request.command cmdV, Request.tick false true,
        Request.command cmdV, Request.tick true true] ∧
    (velTargets (run idleVel [Request.command cmdV, Request.tick false true,
        Request.command cmdV, Request.tick true true]).1.flatten).length ≤
      submissions [Request.command cmdV, Request.tick false true,
        Request.command cmdV, Request.tick true true]) :=
  ⟨by decide, by decide, by decide, by decide,
    velocity_calls_follow_dirty_flag idleVel
      [Request.command cmdV, Request.tick false true, Request.command cmdV,
        Request.tick true true]
      (by decide) (by decide) (by decide) (by decide)⟩

/-- C9: on an initialised node with a trajectory mid-execution (cursor `c` below the
length), after the operation mode is set to `velocity` any run of ticks and direct
commands (each with at least one point) issues no `MoveJointSpaceSync` call and
leaves the trajectory, the cursor and the finished flag unchanged; after the mode is
set back to `position`, ticks that observe moving issue nothing and the first tick
that observes not-moving issues `MoveJointSpaceSync` for the point at `c`. -/
theorem mode_switch_freezes_cursor (s : Node) (reqs : List Request) (rets : List Bool)
    (ret : Bool) (hi : s.isInitialized_ = true)
    (hc : s.traj_point_nr_ < s.traj_.points.length)
    (hr : ∀ r ∈ reqs, isTickOrCommand r = true) :
    ∃ s1, (run (srvCallback_SetOperationMode s "velocity").1 reqs).2 = some s1 ∧
      moveTargets (srvCallback_SetOperationMode s "velocity").2.1 = [] ∧
      moveTargets (run (srvCallback_SetOperationMode s "velocity").1 reqs).1.flatten = [] ∧
      s1.traj_ = s.traj_ ∧ s1.traj_point_nr_ = s.traj_point_nr_ ∧
      s1.finished_ = s.finished_ ∧
      (run (srvCallback_SetOperationMode s1 "position").1
          (ticks (rets.map (fun r => (true, r)) ++ [(false, ret)]))).1 =
        List.replicate rets.length [] ++
          [[PCubeCall.MoveJointSpaceSync
            (s.traj_.points.get ⟨s.traj_point_nr_, hc⟩).positions]] := by
  obtain ⟨s1, h1, h2, _, h4, h5, h6, h7, _⟩ :=
    run_velocity reqs (srvCallback_SetOperationMode s "velocity").1 hi rfl hr
  refine ⟨s1, h1, rfl, h7, h4, h5, h6, ?_⟩
  have h4' : s1.traj_ = s.traj_ := h4
  have h5' : s1.traj_point_nr_ = s.traj_point_nr_ := h5
  have hc1 : (srvCallback_SetOperationMode s1 "position").1.traj_point_nr_ <
      (srvCallback_SetOperationMode s1 "position").1.traj_.points.length := by
    show s1.traj_point_nr_ < s1.traj_.points.length
    rw [h4', h5']; exact hc
  generalize hq : (srvCallback_SetOperationMode s1 "position").1 = q at hc1
  have hqi : q.isInitialized_ = true := by rw [← hq]; exact h2
  have hqm : q.OperationMode = "position" := by rw [← hq]; rfl
  have hqt : q.traj_ = s.traj_ := by rw [← hq]; exact h4'
  have hqn : q.traj_point_nr_ = s.traj_point_nr_ := by rw [← hq]; exact h5'
  induction rets with
  | nil =>
    simp only [List.map_nil, List.nil_append, List.length_nil, List.replicate_zero]
    rw [run_tick_cons, tick_advance q ret hqi hqm hc1]
    simp [ticks, run, hqt, hqn]
  | cons r rs ih =>
    simp only [List.map_cons, List.cons_append, List.length_cons, List.replicate_succ]
    rw [run_tick_cons, tick_moving q r hqm]
    simp only [List.cons.injEq, true_and]
    exact ih

/-- Witness for C9: `T2` with one point sent; a command and two ticks in velocity
mode, then back in position mode one moving tick and one not-moving tick. -/
theorem mode_switch_freezes_cursor_witness :
    midPos.isInitialized_ = true ∧
    ∃ hc : midPos.traj_point_nr_ < midPos.traj_.points.length,
    (∀ r ∈ [Request.tick false true, Request.command cmdV, Request.tick false true],
      isTickOrCommand r = true) ∧
    ∃ s1, (run (srvCallback_SetOperationMode midPos "velocity").1
        [Request.tick false true, Request.command cmdV, Request.tick false true]).2 = some s1 ∧
      moveTargets (srvCallback_SetOperationMode midPos "velocity").2.1 = [] ∧
      moveTargets (run (srvCallback_SetOperationMode midPos "velocity").1
        [Request.tick false true, Request.command cmdV, Request.tick false true]).1.flatten
        = [] ∧
      s1.traj_ = midPos.traj_ ∧ s1.traj_point_nr_ = midPos.traj_point_nr_ ∧
      s1.finished_ = midPos.finished_ ∧
      (run (srvCallback_SetOperationMode s1 "position").1
          (ticks ([true].map (fun r => (true, r)) ++ [(false, true)]))).1 =
        List.replicate [true].length [] ++
          [[PCubeCall.MoveJointSpaceSync
            (midPos.traj_.points.get ⟨midPos.traj_point_nr_, hc⟩).positions]] :=
  ⟨by decide, by decide, by decide,
    mode_switch_freezes_cursor midPos
      [Request.tick false true, Request.command cmdV, Request.tick false true] [true] true
      (by decide) (by decide) (by decide)⟩

/-- C10 fails as stated: with `T2` at its last point (cursor 1 of 2) and the hardware
not moving, the tick issues the last move and brings the cursor to the length, but
the finished flag is still false after that tick. -/
theorem last_point_tick_not_finished_example :
    midPos.isInitialized_ = true ∧ midPos.OperationMode = "position" ∧
    midPos.traj_point_nr_ = midPos.traj_.points.length - 1 ∧
    (updatePCubeCommands midPos false true).2 = [PCubeCall.MoveJointSpaceSync [1, 1]] ∧
    (updatePCubeCommands midPos false true).1.traj_point_nr_ = midPos.traj_.points.length ∧
    (updatePCubeCommands midPos false true).1.finished_ = false := by
  decide

/-- C10 as amended: on an initialised node in position mode with the hardware not
moving and the cursor at the last point (cursor + 1 = length), a single tick issues
`MoveJointSpaceSync` for the last point and increments the cursor to the length,
leaving the finished flag as it was; the finished flag is set by the next tick that
observes not-moving, which issues no call. -/
theorem last_point_tick_then_finish (s : Node) (ret ret2 : Bool)
    (hi : s.isInitialized_ = true) (hm : s.OperationMode = "position")
    (hl : s.traj_point_nr_ + 1 = s.traj_.points.length) :
    (∃ p, s.traj_.points.getLast? = some p ∧
      (updatePCubeCommands s false ret).2 = [PCubeCall.MoveJointSpaceSync p.positions]) ∧
    (updatePCubeCommands s false ret).1.traj_point_nr_ = s.traj_.points.length ∧
    (updatePCubeCommands s false ret).1.finished_ = s.finished_ ∧
    (updatePCubeCommands (updatePCubeCommands s false ret).1 false ret2).2 = [] ∧
    (updatePCubeCommands (updatePCubeCommands s false ret).1 false ret2).1.finished_ = true ∧
    (updatePCubeCommands (updatePCubeCommands s false ret).1 false ret2).1.traj_point_nr_
      = s.traj_.points.length := by
  have hc : s.traj_point_nr_ < s.traj_.points.length := by omega
  have e := tick_advance s ret hi hm hc
  have ht : updatePCubeCommands (updatePCubeCommands s false ret).1 false ret2 =
      ({ (updatePCubeCommands s false ret).1 with finished_ := true }, []) := by
    apply tick_finish
    · rw [e]; exact hi
    · rw [e]; exact hm
    · rw [e]; simp [hl]
  rw [ht, e]
  refine ⟨⟨s.traj_.points.get ⟨s.traj_point_nr_, hc⟩, ?_, rfl⟩, hl, rfl, rfl, rfl, hl⟩
  rw [List.getLast?_eq_getElem?]
  have : s.traj_.points.length - 1 = s.traj_point_nr_ := by omega
  rw [this]
  simp [List.getElem?_eq_getElem hc]

/-- Witness for C10 as amended: `T2` with the cursor at its second and last point. -/
theorem last_point_tick_then_finish_witness :
    midPos.isInitialized_ = true ∧ midPos.OperationMode = "position" ∧
    midPos.traj_point_nr_ + 1 = midPos.traj_.points.length ∧
    ((∃ p, midPos.traj_.points.getLast? = some p ∧
      (updatePCubeCommands midPos false true).2 = [PCubeCall.MoveJointSpaceSync p.positions]) ∧
    (updatePCubeCommands midPos false true).1.traj_point_nr_ = midPos.traj_.points.length ∧
    (updatePCubeCommands midPos false true).1.finished_ = midPos.finished_ ∧
    (updatePCubeCommands (updatePCubeCommands midPos false true).1 false true).2 = [] ∧
    (updatePCubeCommands (updatePCubeCommands midPos false true).1 false true).1.finished_
      = true ∧
    (updatePCubeCommands (updatePCubeCommands midPos false true).1 false true).1.traj_point_nr_
      = midPos.traj_.points.length) :=
  ⟨by decide, by decide, by decide,
    last_point_tick_then_finish midPos true true (by decide) (by decide) (by decide)⟩

/-- The wait loop of `executeCB` after `n` passes that read finished false and no new
goal: it goes on with the remaining observations. -/
theorem executeCB_wait_skip (n : Nat) (rest : List (Bool × Bool)) :
    executeCB_wait (List.replicate n (false, false) ++ rest) = executeCB_wait rest := by
  induction n with
  | zero => simp
  | succ k ih => simpa [List.replicate_succ, executeCB_wait, executeCB_poll] using ih

/-- Without a preempt request every run of `executeCB` that returns makes exactly one
report on the action server. -/
theorem executeCB_single_report_without_preempt (s : Node) (goal : JointTrajectory)
    (observed : List (Bool × Bool)) (calls : List ActionCall)
    (h : executeCB s goal false observed = some calls) : calls.length = 1 := by
  unfold executeCB at h
  cases he : executeCB_entry s goal false with
  | none => simp [he] at h
  | some e =>
    have hes : e.waiting = false ∧ e.as = [ActionCall.setAborted] ∨
        e.waiting = true ∧ e.as = [] := by
      cases hi : s.isInitialized_ with
      | false =>
        simp [executeCB_entry, hi] at he
        subst he
        exact Or.inl ⟨rfl, rfl⟩
      | true =>
        cases hp : goal.points with
        | nil => simp [executeCB_entry, hi, hp] at he
        | cons p ps =>
          simp [executeCB_entry, hi, hp] at he
          subst he
          exact Or.inr ⟨rfl, rfl⟩
    rw [he] at h
    rcases hes with ⟨hw, ha⟩ | ⟨hw, ha⟩
    · simp [hw, ha] at h
      subst h
      rfl
    · cases hc : executeCB_wait observed with
      | none => simp [hw, hc] at h
      | some c =>
        simp [hw, ha, hc] at h
        subst h
        rfl

/-- C11, the behaviour of the code when a preempt is requested at entry: on every
initialised node and for every trajectory with at least one point, `executeCB` calls
`setPreempted` and goes on into the wait loop; the run returns with a second report,
`setSucceeded` when a pass reads the finished flag set, `setAborted` when a pass
finds a new goal available. -/
theorem executeCB_preempt_then_second_report (s : Node) (p : JointTrajectoryPoint)
    (ps : List JointTrajectoryPoint) (n : Nat) (ng : Bool) (rest : List (Bool × Bool)) :
    executeCB { s with isInitialized_ := true } { points := p :: ps } true
        (List.replicate n (false, false) ++ (true, ng) :: rest)
      = some [ActionCall.setPreempted, ActionCall.setSucceeded] ∧
    executeCB { s with isInitialized_ := true } { points := p :: ps } true
        (List.replicate n (false, false) ++ (false, true) :: rest)
      = some [ActionCall.setPreempted, ActionCall.setAborted] := by
  constructor
  · simp [executeCB, executeCB_entry, executeCB_wait_skip, executeCB_wait, executeCB_poll]
  · simp [executeCB, executeCB_entry, executeCB_wait_skip, executeCB_wait, executeCB_poll]

end PowercubeChain
